import Mathlib

/-!
Verification development for the task subsystem of src/rtos/sys/task/task.c
(NucleoRTOS). The scheduler state (TCB heap, active pointer, ready queues,
blocked and exited lists) is embedded shallowly: heap pointers become natural
task identifiers, the intrusive lists become lists of identifiers, and each C
function becomes a Lean function over the scheduler state. Fallible pointer
dereferences return Option; allocator and list-append outcomes that the C code
receives from external collaborators are passed in as explicit oracle values.
-/

/-- Task identifiers stand in for the heap addresses of task control blocks. -/
abbrev TaskId := Nat

/-- Task state enum, task.c lines 30-35. -/
inductive task_state
  | TASK_EXITED
  | TASK_BLOCKED
  | TASK_READY
  | TASK_ACTIVE
deriving DecidableEq

open task_state

/-- Block cause tag (block_reason_t from the missing task.h); concrete values
are opaque driver tags, so they are embedded as naturals. -/
abbrev block_reason := Nat

/-- BLOCK_NONE, the cleared block cause. -/
def BLOCK_NONE : block_reason := 0

/-- Task control block, task.c lines 40-52. The intrusive list_node field is
omitted: list membership is carried by the scheduler state's lists instead. -/
structure task_status where
  stack_ptr : Nat
  stack_start : Nat
  stack_end : Nat
  entry : Nat
  arg : Nat
  state : task_state
  name : String
  stack_allocated : Bool
  blockcause : block_reason
  priority : Nat
deriving DecidableEq

/-- Global scheduler state, task.c lines 54-58: the TCB heap (an association
list keyed by task identifier), the active task pointer, the per-priority ready
queues, and the blocked and exited lists. -/
structure SchedState where
  tcbs : List (TaskId × task_status)
  active_task : Option TaskId
  ready_tasks : List (List TaskId)
  blocked_tasks : List TaskId
  exited_tasks : List TaskId
deriving DecidableEq

/-- Heap lookup of a TCB by identifier (dereference of a task handle). -/
def tcbLookup : List (TaskId × task_status) → TaskId → Option task_status
  | [], _ => none
  | p :: rest, i => if p.1 = i then some p.2 else tcbLookup rest i

/-- Heap update of the TCB at an identifier (store through a task handle). -/
def tcbSet : List (TaskId × task_status) → TaskId → task_status →
    List (TaskId × task_status)
  | [], _, _ => []
  | p :: rest, i, t => if p.1 = i then (i, t) :: rest else p :: tcbSet rest i t

/-- Heap deallocation of a TCB (free of the task handle). -/
def tcbFree (h : List (TaskId × task_status)) (i : TaskId) :
    List (TaskId × task_status) :=
  h.filter (fun p => decide (p.1 ≠ i))

/-- Dereference of a task handle against a scheduler state. -/
def tcbOf (s : SchedState) (i : TaskId) : Option task_status :=
  tcbLookup s.tcbs i

/-- Read of ready_tasks[i]. -/
def readyQ (s : SchedState) (i : Nat) : List TaskId :=
  s.ready_tasks.getD i []

/-- Concatenation of every list a task can belong to (all ready queues, then
the blocked list, then the exited list). -/
def allListed (s : SchedState) : List TaskId :=
  s.ready_tasks.flatten ++ s.blocked_tasks ++ s.exited_tasks

/-- get_active_task, task.c line 231. -/
def get_active_task (s : SchedState) : Option TaskId :=
  s.active_task

/-- task_yield, task.c lines 185-190. Marks the active task READY and sets the
pendsv bit (the returned Bool). Returns none exactly when the write through
active_task would dereference a null or dangling pointer. -/
def task_yield (s : SchedState) : Option (SchedState × Bool) :=
  match s.active_task with
  | none => none
  | some a =>
    match tcbOf s a with
    | none => none
    | some t =>
      some ({ s with tcbs := tcbSet s.tcbs a { t with state := TASK_READY } }, true)

/-- block_active_task, task.c lines 238-246. Marks the active task BLOCKED
with the given cause and sets the pendsv bit (the returned Bool). Returns none
exactly when the writes through active_task would dereference a null or
dangling pointer. -/
def block_active_task (s : SchedState) (reason : block_reason) :
    Option (SchedState × Bool) :=
  match s.active_task with
  | none => none
  | some a =>
    match tcbOf s a with
    | none => none
    | some t =>
      some ({ s with
                tcbs := tcbSet s.tcbs a
                  { t with state := TASK_BLOCKED, blockcause := reason } }, true)

/-- Effects of task_destroy that are not scheduler-state updates: whether the
SVCall (start handler) was raised, and which heap addresses were freed, in
order. A TCB's address is its identifier; a stack's address is its stack_end
field (the low end, which is what malloc returned). -/
structure DestroyEff where
  raised_svcall : Bool
  freed : List Nat
deriving DecidableEq

/-- task_destroy, task.c lines 196-225. Active target (pointer comparison with
active_task): append to the exited list, clear active_task, raise the SVCall;
nothing is freed and the TCB (including its state field) is not written.
Non-active target: remove it from the blocked list if BLOCKED, from the ready
queue at its priority if READY (warn otherwise), then free its stack if
stack_allocated and free the TCB. Returns none when the non-active branch
dereferences a handle that is not in the heap. -/
def task_destroy (s : SchedState) (tsk : TaskId) : Option (SchedState × DestroyEff) :=
  if some tsk = s.active_task then
    some ({ s with exited_tasks := s.exited_tasks ++ [tsk], active_task := none },
          ⟨true, []⟩)
  else
    match tcbOf s tsk with
    | none => none
    | some t =>
      let s1 :=
        if t.state = TASK_BLOCKED then
          { s with blocked_tasks := s.blocked_tasks.erase tsk }
        else if t.state = TASK_READY then
          { s with ready_tasks :=
              s.ready_tasks.set t.priority ((readyQ s t.priority).erase tsk) }
        else
          s
      some ({ s1 with tcbs := tcbFree s1.tcbs tsk },
            ⟨false, (if t.stack_allocated then [t.stack_end] else []) ++ [tsk]⟩)

/-- unblock_task, task.c lines 256-271. No-op (state returned unchanged) unless
the target is BLOCKED with a matching cause; otherwise mark it READY, clear the
cause, move it from the blocked list to the tail of its priority's ready queue.
Returns none when the handle is not in the heap (null or dangling pointer). -/
def unblock_task (s : SchedState) (tsk : TaskId) (reason : block_reason) :
    Option SchedState :=
  match tcbOf s tsk with
  | none => none
  | some t =>
    if t.state ≠ TASK_BLOCKED ∨ t.blockcause ≠ reason then
      some s
    else
      some { s with
               tcbs := tcbSet s.tcbs tsk
                 { t with state := TASK_READY, blockcause := BLOCK_NONE },
               blocked_tasks := s.blocked_tasks.erase tsk,
               ready_tasks := s.ready_tasks.set t.priority
                 (readyQ s t.priority ++ [tsk]) }

/-- Ready-queue scan of select_active_task, task.c lines 383-387: the C loop
runs i from RTOS_PRIORITY_COUNT - 1 down to 1 and stops at the first non-empty
queue; if none is found the loop leaves i = 0. The argument is the loop's
starting index (RTOS_PRIORITY_COUNT - 1). -/
def scan_ready (s : SchedState) : Nat → Nat
  | 0 => 0
  | i + 1 => if readyQ s (i + 1) ≠ [] then i + 1 else scan_ready s i

/-- Reparenting step of select_active_task, task.c lines 398-412: if a previous
active task exists, append it to the blocked list when its state is BLOCKED and
to the tail of the ready queue at its own priority otherwise. Returns none when
reading the state of a dangling active_task pointer. -/
def select_reparent (s1 : SchedState) : Option SchedState :=
  match s1.active_task with
  | none => some s1
  | some prevId =>
    match tcbOf s1 prevId with
    | none => none
    | some prev =>
      if prev.state = TASK_BLOCKED then
        some { s1 with blocked_tasks := s1.blocked_tasks ++ [prevId] }
      else
        some { s1 with
                 ready_tasks := s1.ready_tasks.set prev.priority
                   (readyQ s1 prev.priority ++ [prevId]) }

/-- Dispatch steps of select_active_task after the scan, task.c lines 388-416:
if the queue the scan stopped at is empty, return with no change; otherwise pop
its head, reparent the previous active task, then make the popped task the
active one and mark it TASK_ACTIVE. -/
def select_after_scan (s : SchedState) (i : Nat) : Option SchedState :=
  match readyQ s i with
  | [] => some s
  | newId :: rest =>
    match select_reparent { s with ready_tasks := s.ready_tasks.set i rest } with
    | none => none
    | some s2 =>
      match tcbOf s2 newId with
      | none => none
      | some neu =>
        some { s2 with
                 active_task := some newId,
                 tcbs := tcbSet s2.tcbs newId { neu with state := TASK_ACTIVE } }

/-- select_active_task, task.c lines 376-416, for a compile-time priority count
P = RTOS_PRIORITY_COUNT. -/
def select_active_task (P : Nat) (s : SchedState) : Option SchedState :=
  select_after_scan s (scan_ready s (P - 1))

/-- INITIAL_xPSR, task.c line 24: the Thumb bit (bit 24 of EPSR) is set. -/
def INITIAL_xPSR : Nat := 0x01000000

/-- INITIAL_EXEC_RETURN, task.c line 25: exception return to thread mode using
the process stack. -/
def INITIAL_EXEC_RETURN : Nat := 0xFFFFFFFD

/-- initialize_task_stack, task.c lines 448-485. The byte-wise alignment loop
(lines 454-457) rounds the pointer down to a 4-byte boundary; then seventeen
words are written by post-decrement, one write per C statement of lines
464-483, from the aligned address downward: xPSR, ReturnAddress (entry),
LR saved by exception (exit trampoline task_exithandler, whose code address is
the exit_handler argument), R12, R3, R2, R1, R0 (the argument), the
EXEC_RETURN word, then R11 down to R4. The result is the list of (address,
value) word writes in program order, paired with the returned stack pointer
(the last, lowest, address written). -/
def initialize_task_stack (exit_handler : Nat) (stack_ptr : Nat)
    (return_pc : Nat) (arg0 : Nat) : List (Nat × Nat) × Nat :=
  let al := stack_ptr - stack_ptr % 4
  ([ (al, INITIAL_xPSR),
     (al - 4, return_pc),
     (al - 8, exit_handler),
     (al - 12, 0x12121212),
     (al - 16, 0x03030303),
     (al - 20, 0x02020202),
     (al - 24, 0x01010101),
     (al - 28, arg0),
     (al - 32, INITIAL_EXEC_RETURN),
     (al - 36, 0x11111111),
     (al - 40, 0x10101010),
     (al - 44, 0x09090909),
     (al - 48, 0x08080808),
     (al - 52, 0x07070707),
     (al - 56, 0x06060606),
     (al - 60, 0x05050505),
     (al - 64, 0x04040404) ],
   al - 64)

/-- Log levels of the logging facility (config.h lines 46-49). -/
inductive log_level
  | L_DEBUG
  | L_INFO
  | L_WARNING
  | L_ERROR
deriving DecidableEq

/-- Modelled from the spec: sys/err.h is not under src/. These are the two
error codes task.c passes to exit; they are distinct constants of the missing
header's error enumeration (the spec's section 7 distinguishes the scheduler
error from invalid-argument errors). -/
inductive err_t
  | ERR_SCHEDULER
  | ERR_BADPARAM
deriving DecidableEq

/-- SysTick_LOAD_RELOAD_Msk: the 24-bit reload-value limit. -/
def SysTick_LOAD_RELOAD_Msk : Nat := 0xFFFFFF

/-- SysTick register state written by enable_systick. -/
structure SysTickRegs where
  LOAD : Nat
  TICKINT : Bool
  ENABLE : Bool
deriving DecidableEq

/-- Outcome of enable_systick: either a fatal log-and-exit, or the programmed
SysTick registers. -/
inductive SysTickOutcome
  | fatal (lvl : log_level) (code : err_t)
  | ok (regs : SysTickRegs)
deriving DecidableEq

/-- enable_systick, task.c lines 422-438. hclk is the uint32 value returned by
hclk_freq; SYSTICK_FREQ is the compile-time tick frequency (a positive
configuration constant from the missing task.h). The reload value is the AHB
clock divided by 8 (the right shift) and then by the tick frequency; if it
exceeds the 24-bit mask the code logs at error level and calls
exit(ERR_BADPARAM), otherwise LOAD is set to reload - 1 (uint32 arithmetic)
and the TICKINT and ENABLE bits are set. -/
def enable_systick (SYSTICK_FREQ : Nat) (hclk : Nat) : SysTickOutcome :=
  let reload_val := ((hclk % 2 ^ 32) >>> 3) / SYSTICK_FREQ
  if reload_val > SysTick_LOAD_RELOAD_Msk then
    SysTickOutcome.fatal log_level.L_ERROR err_t.ERR_BADPARAM
  else
    SysTickOutcome.ok ⟨(reload_val + (2 ^ 32 - 1)) % 2 ^ 32, true, true⟩

/-- task_config_t from the missing task.h, as used by task.c lines 106-132:
priority, optional caller-supplied stack (none = NULL), stack size, optional
name (none = NULL). -/
structure task_config where
  task_priority : Nat
  task_stack : Option Nat
  task_stacksize : Nat
  task_name : Option String
deriving DecidableEq

/-- Compile-time configuration constants from the missing task.h, kept
abstract: the priority count P, the defaults used when no config is given, and
the idle task parameters. -/
structure RTOSConfig where
  RTOS_PRIORITY_COUNT : Nat
  DEFAULT_PRIORITY : Nat
  DEFAULT_STACKSIZE : Nat
  IDLE_TASK_PRIORITY : Nat
  IDLE_TASK_STACK_SIZE : Nat
deriving DecidableEq

/-- Allocator and list-append outcomes that one task_create call receives from
its external collaborators: the address handed out by malloc for the TCB (none
= allocation failure), the address handed out for the stack, and whether
list_append succeeds (task.c checks its result against NULL). -/
structure AllocOracle where
  tcb : Option TaskId
  stack : Option Nat
  append_ok : Bool
deriving DecidableEq

/-- Result of a task_create call: the scheduler state after the call, the
returned handle (none = NULL), the heap addresses allocated during the call in
order, and the heap addresses passed to free during the call in order. -/
structure CreateResult where
  sched : SchedState
  handle : Option TaskId
  allocated : List Nat
  freed : List Nat
deriving DecidableEq

/-- Common tail of task_create, task.c lines 133-153: fill the remaining TCB
fields, initialize the stack (stack_ptr receives the returned stack pointer),
and append the new TCB to its priority's ready queue. The append's result is
stored back into ready_tasks[priority] before the NULL check, so on append
failure (lines 144-151) the queue slot is left NULL (the empty list), the TCB
is freed, and then the stack is freed through the stale TCB's stack_start
pointer (the high end of the stack, not the address malloc returned). -/
def task_create_finish (s : SchedState) (entry arg exit_handler : Nat)
    (tcbId : TaskId) (priority : Nat) (nm : String)
    (stack_end stack_start : Nat) (stack_allocated : Bool)
    (append_ok : Bool) (allocated : List Nat) : CreateResult :=
  let t : task_status :=
    { stack_ptr := (initialize_task_stack exit_handler stack_start entry arg).2,
      stack_start := stack_start, stack_end := stack_end, entry := entry,
      arg := arg, state := TASK_READY, name := nm,
      stack_allocated := stack_allocated, blockcause := BLOCK_NONE,
      priority := priority }
  if append_ok then
    { sched :=
        { s with
            tcbs := s.tcbs ++ [(tcbId, t)],
            ready_tasks :=
              s.ready_tasks.set priority (readyQ s priority ++ [tcbId]) },
      handle := some tcbId, allocated := allocated, freed := [] }
  else
    { sched := { s with ready_tasks := s.ready_tasks.set priority [] },
      handle := none, allocated := allocated,
      freed := [tcbId] ++ (if stack_allocated then [stack_start] else []) }

/-- task_create, task.c lines 83-154. entry is the task entry function pointer
(0 = NULL); exit_handler is the code address of task_exithandler used by the
stack initializer. With no config (cfg = none): default priority, empty name,
heap-allocated stack of the default size. With a config: reject
task_priority > RTOS_PRIORITY_COUNT (note: a strict comparison in the source,
so task_priority = RTOS_PRIORITY_COUNT is accepted) without freeing the
already-allocated TCB; use the caller stack if provided, else allocate one;
stack_start is stack_end + (stacksize - 1) in both config branches. -/
def task_create (cc : RTOSConfig) (al : AllocOracle) (s : SchedState)
    (entry arg : Nat) (cfg : Option task_config) (exit_handler : Nat) :
    CreateResult :=
  if entry = 0 then ⟨s, none, [], []⟩
  else
    match al.tcb with
    | none => ⟨s, none, [], []⟩
    | some tcbId =>
      match cfg with
      | none =>
        match al.stack with
        | none => ⟨s, none, [tcbId], [tcbId]⟩
        | some stk =>
          task_create_finish s entry arg exit_handler tcbId cc.DEFAULT_PRIORITY
            "" stk (stk + (cc.DEFAULT_STACKSIZE - 1)) true al.append_ok
            [tcbId, stk]
      | some c =>
        if c.task_priority > cc.RTOS_PRIORITY_COUNT then
          ⟨s, none, [tcbId], []⟩
        else
          match c.task_stack with
          | some ustk =>
            task_create_finish s entry arg exit_handler tcbId c.task_priority
              (c.task_name.getD "") ustk (ustk + (c.task_stacksize - 1)) false
              al.append_ok [tcbId]
          | none =>
            match al.stack with
            | none => ⟨s, none, [tcbId], [tcbId]⟩
            | some stk =>
              task_create_finish s entry arg exit_handler tcbId c.task_priority
                (c.task_name.getD "") stk (stk + (c.task_stacksize - 1)) true
                al.append_ok [tcbId, stk]

/-- Outcome of rtos_start: either a fatal log-and-exit, or control handed to
the scheduler through the SVCall (which never returns), carrying the
task_create result for the idle task. -/
inductive StartOutcome
  | fatal (lvl : log_level) (code : err_t)
  | started (res : CreateResult)
deriving DecidableEq

/-- rtos_start, task.c lines 163-179. idle_entry_addr is the code address of
idle_entry (non-zero); svcall_returns models whether the svc instruction falls
through, which must not happen. The idle config is DEFAULT_TASK_CONFIG with
name, priority and stack size overridden; its stack pointer field is NULL so
the idle stack is heap-allocated (modelled from the spec for the missing
task.h default, which says the idle stack uses the configured idle stack
size). If task_create returns NULL the code logs at error level and calls
exit(ERR_SCHEDULER); if the SVCall returns it logs and calls
exit(ERR_SCHEDULER) as well. -/
def rtos_start (cc : RTOSConfig) (al : AllocOracle) (s : SchedState)
    (idle_entry_addr exit_handler : Nat) (svcall_returns : Bool) : StartOutcome :=
  let idle_cfg : task_config :=
    { task_priority := cc.IDLE_TASK_PRIORITY, task_stack := none,
      task_stacksize := cc.IDLE_TASK_STACK_SIZE, task_name := some "Idle Task" }
  let res := task_create cc al s idle_entry_addr 0 (some idle_cfg) exit_handler
  match res.handle with
  | none => StartOutcome.fatal log_level.L_ERROR err_t.ERR_SCHEDULER
  | some _ =>
    if svcall_returns then StartOutcome.fatal log_level.L_ERROR err_t.ERR_SCHEDULER
    else StartOutcome.started res

/-- Reading a queue array at the index just written. -/
theorem getD_set_self {α : Type} (l : List α) (i : Nat) (v d : α)
    (h : i < l.length) : (l.set i v).getD i d = v := by
  simp [List.getD_eq_getElem?_getD, List.getElem?_set_self h]

/-- Reading a queue array at an index other than the one written. -/
theorem getD_set_ne {α : Type} (l : List α) (i j : Nat) (v d : α)
    (h : i ≠ j) : (l.set i v).getD j d = l.getD j d := by
  simp [List.getD_eq_getElem?_getD, List.getElem?_set_ne h]

/-- Membership in a ready queue gives membership in the flattened queue array. -/
theorem mem_flatten_of_mem_readyQ (s : SchedState) (i : Nat) (x : TaskId)
    (hi : i < s.ready_tasks.length) (hx : x ∈ readyQ s i) :
    x ∈ s.ready_tasks.flatten := by
  refine List.mem_flatten.2 ⟨readyQ s i, ?_, hx⟩
  unfold readyQ
  rw [List.getD_eq_getElem _ _ hi]
  exact List.getElem_mem hi

/-- Membership in a flattened queue array after one slot update. -/
theorem mem_flatten_set {α : Type} (L : List (List α)) (i : Nat) (v : List α)
    (x : α) (hx : x ∈ (L.set i v).flatten) : x ∈ L.flatten ∨ x ∈ v := by
  rcases List.mem_flatten.1 hx with ⟨q, hq, hxq⟩
  rcases List.mem_or_eq_of_mem_set hq with h | h
  · exact Or.inl (List.mem_flatten.2 ⟨q, h, hxq⟩)
  · subst h; exact Or.inr hxq

/-- Decomposition of the no-duplicate-membership invariant into its parts. -/
theorem sched_nodup_parts (s : SchedState) (h : (allListed s).Nodup) :
    s.ready_tasks.flatten.Nodup ∧ s.blocked_tasks.Nodup ∧
    s.exited_tasks.Nodup ∧
    (∀ x ∈ s.ready_tasks.flatten, x ∉ s.blocked_tasks ∧ x ∉ s.exited_tasks) ∧
    (∀ x ∈ s.blocked_tasks, x ∉ s.exited_tasks) := by
  unfold allListed at h
  have hfb : (s.ready_tasks.flatten ++ s.blocked_tasks).Nodup :=
    List.Nodup.of_append_left h
  have he : s.exited_tasks.Nodup := List.Nodup.of_append_right h
  have hdisj1 : (s.ready_tasks.flatten ++ s.blocked_tasks).Disjoint
      s.exited_tasks := List.disjoint_of_nodup_append h
  have hf : s.ready_tasks.flatten.Nodup := List.Nodup.of_append_left hfb
  have hb : s.blocked_tasks.Nodup := List.Nodup.of_append_right hfb
  have hdisj2 : s.ready_tasks.flatten.Disjoint s.blocked_tasks :=
    List.disjoint_of_nodup_append hfb
  refine ⟨hf, hb, he, ?_, ?_⟩
  · intro x hx
    constructor
    · intro hbm; exact hdisj2 hx hbm
    · intro hem; exact hdisj1 (List.mem_append.2 (Or.inl hx)) hem
  · intro x hbm hem
    exact hdisj1 (List.mem_append.2 (Or.inr hbm)) hem

/-- Each ready queue is duplicate-free under the global invariant. -/
theorem readyQ_nodup (s : SchedState) (h : (allListed s).Nodup) (i : Nat)
    (hi : i < s.ready_tasks.length) : (readyQ s i).Nodup := by
  have hf := (sched_nodup_parts s h).1
  have hall := (List.nodup_flatten.1 hf).1
  apply hall
  unfold readyQ
  rw [List.getD_eq_getElem _ _ hi]
  exact List.getElem_mem hi

/-- Distinct ready queues are disjoint under the global invariant. -/
theorem readyQ_disjoint (s : SchedState) (h : (allListed s).Nodup)
    (i j : Nat) (hi : i < s.ready_tasks.length) (hj : j < s.ready_tasks.length)
    (hij : i ≠ j) (x : TaskId) (hxi : x ∈ readyQ s i) : x ∉ readyQ s j := by
  have hf := (sched_nodup_parts s h).1
  have hpw := (List.nodup_flatten.1 hf).2
  rw [List.pairwise_iff_getElem] at hpw
  intro hxj
  have hgi : readyQ s i = s.ready_tasks[i] := by
    unfold readyQ; rw [List.getD_eq_getElem _ _ hi]
  have hgj : readyQ s j = s.ready_tasks[j] := by
    unfold readyQ; rw [List.getD_eq_getElem _ _ hj]
  rcases Nat.lt_or_ge i j with hlt | hge
  · exact hpw i j hi hj hlt (hgi ▸ hxi) (hgj ▸ hxj)
  · have hlt : j < i := Nat.lt_of_le_of_ne hge (fun e => hij e.symm)
    exact hpw j i hj hi hlt (hgj ▸ hxj) (hgi ▸ hxi)

/-- Heap lookup after a heap update at the same identifier. -/
theorem tcbSet_lookup_self : ∀ (h : List (TaskId × task_status)) (i : TaskId)
    (t : task_status), (tcbLookup h i).isSome →
    tcbLookup (tcbSet h i t) i = some t := by
  intro h
  induction h with
  | nil => intro i t hs; simp [tcbLookup] at hs
  | cons p rest ih =>
    intro i t hs
    by_cases hp : p.1 = i
    · show tcbLookup (if p.1 = i then (i, t) :: rest else p :: tcbSet rest i t) i = some t
      rw [if_pos hp]
      show (if i = i then some t else tcbLookup rest i) = some t
      rw [if_pos rfl]
    · show tcbLookup (if p.1 = i then (i, t) :: rest else p :: tcbSet rest i t) i = some t
      rw [if_neg hp]
      show (if p.1 = i then some p.2 else tcbLookup (tcbSet rest i t) i) = some t
      rw [if_neg hp]
      have hs2 : (tcbLookup rest i).isSome := by
        have : tcbLookup (p :: rest) i = tcbLookup rest i := by
          show (if p.1 = i then some p.2 else tcbLookup rest i) = tcbLookup rest i
          rw [if_neg hp]
        rw [this] at hs
        exact hs
      exact ih i t hs2

/-- Heap lookup after a heap update at a different identifier. -/
theorem tcbSet_lookup_ne : ∀ (h : List (TaskId × task_status)) (i j : TaskId)
    (t : task_status), j ≠ i → tcbLookup (tcbSet h i t) j = tcbLookup h j := by
  intro h
  induction h with
  | nil => intro i j t _; rfl
  | cons p rest ih =>
    intro i j t hne
    by_cases hp : p.1 = i
    · show tcbLookup (if p.1 = i then (i, t) :: rest else p :: tcbSet rest i t) j =
        tcbLookup (p :: rest) j
      rw [if_pos hp]
      show (if i = j then some t else tcbLookup rest j) =
        if p.1 = j then some p.2 else tcbLookup rest j
      rw [if_neg (Ne.symm hne), if_neg (by rw [hp]; exact Ne.symm hne)]
    · show tcbLookup (if p.1 = i then (i, t) :: rest else p :: tcbSet rest i t) j =
        tcbLookup (p :: rest) j
      rw [if_neg hp]
      show (if p.1 = j then some p.2 else tcbLookup (tcbSet rest i t) j) =
        if p.1 = j then some p.2 else tcbLookup rest j
      by_cases hpj : p.1 = j
      · rw [if_pos hpj, if_pos hpj]
      · rw [if_neg hpj, if_neg hpj]
        exact ih i j t hne

/-- The scan result never exceeds its starting index. -/
theorem scan_ready_le (s : SchedState) : ∀ n, scan_ready s n ≤ n := by
  intro n
  induction n with
  | zero => exact Nat.le_refl 0
  | succ k ih =>
    by_cases h : readyQ s (k + 1) ≠ []
    · show (if readyQ s (k + 1) ≠ [] then k + 1 else scan_ready s k) ≤ k + 1
      rw [if_pos h]
    · show (if readyQ s (k + 1) ≠ [] then k + 1 else scan_ready s k) ≤ k + 1
      rw [if_neg h]
      exact Nat.le_trans ih (Nat.le_succ k)

/-- The scan stops either at 0 or at a non-empty queue, and every queue it
passed over (indices strictly above the result, up to the starting index) is
empty. -/
theorem scan_ready_spec (s : SchedState) : ∀ n,
    (scan_ready s n = 0 ∨ readyQ s (scan_ready s n) ≠ []) ∧
    (∀ j, scan_ready s n < j → j ≤ n → readyQ s j = []) := by
  intro n
  induction n with
  | zero =>
    refine ⟨Or.inl rfl, ?_⟩
    intro j h1 h2
    omega
  | succ k ih =>
    by_cases h : readyQ s (k + 1) = []
    · have hstep : scan_ready s (k + 1) = scan_ready s k := by
        show (if readyQ s (k + 1) ≠ [] then k + 1 else scan_ready s k) =
          scan_ready s k
        rw [if_neg (fun hc => hc h)]
      rw [hstep]
      refine ⟨ih.1, ?_⟩
      intro j h1 h2
      rcases Nat.lt_or_ge j (k + 1) with hlt | hge
      · exact ih.2 j h1 (by omega)
      · have hj : j = k + 1 := by omega
        rw [hj]; exact h
    · have hstep : scan_ready s (k + 1) = k + 1 := by
        show (if readyQ s (k + 1) ≠ [] then k + 1 else scan_ready s k) = k + 1
        rw [if_pos h]
      rw [hstep]
      refine ⟨Or.inr h, ?_⟩
      intro j h1 h2
      omega

/-- The scan returns exactly the highest index (within range) whose queue is
non-empty, or 0 when no queue at an index in [1, n] is non-empty. -/
theorem scan_ready_eq (s : SchedState) (p : Nat) : ∀ n, p ≤ n →
    (p = 0 ∨ readyQ s p ≠ []) →
    (∀ j, p < j → j ≤ n → readyQ s j = []) →
    scan_ready s n = p := by
  intro n
  induction n with
  | zero =>
    intro hp _ _
    have hz : p = 0 := Nat.le_zero.1 hp
    rw [hz]
    rfl
  | succ k ih =>
    intro hp hne hab
    by_cases hc : p = k + 1
    · subst hc
      rcases hne with h0 | h0
      · omega
      · show (if readyQ s (k + 1) ≠ [] then k + 1 else scan_ready s k) = k + 1
        rw [if_pos h0]
    · have hple : p ≤ k := by omega
      have hempty : readyQ s (k + 1) = [] := hab (k + 1) (by omega) (Nat.le_refl _)
      have hstep : scan_ready s (k + 1) = scan_ready s k := by
        show (if readyQ s (k + 1) ≠ [] then k + 1 else scan_ready s k) =
          scan_ready s k
        rw [if_neg (fun hc2 => hc2 hempty)]
      rw [hstep]
      exact ih hple hne (fun j h1 h2 => hab j h1 (by omega))

/-- Sample TCB constructor used by concrete witness states. -/
def mkStatus (st : task_state) (pr : Nat) (bc : block_reason) : task_status :=
  { stack_ptr := 0, stack_start := 0, stack_end := 4000, entry := 1, arg := 0,
    state := st, name := "", stack_allocated := true, blockcause := bc,
    priority := pr }

/-- Empty scheduler state with four (empty) ready queues. -/
def sEmpty4 : SchedState := ⟨[], none, [[], [], [], []], [], []⟩

/-- C3 counterexample: destroying the active task does not mark its state
EXITED; at this concrete state the state field is still TASK_ACTIVE after the
call, so the claim's "marks the target's state EXITED" fails on the code. -/
theorem destroy_active_state_counterexample :
    Option.map (fun pr => Option.map task_status.state (tcbOf pr.1 5))
        (task_destroy ⟨[(5, mkStatus TASK_ACTIVE 1 0)], some 5, [[], []], [], []⟩ 5)
      = some (some TASK_ACTIVE) ∧
    TASK_ACTIVE ≠ TASK_EXITED ∧
    (⟨[(5, mkStatus TASK_ACTIVE 1 0)], some 5, [[], []], [], []⟩ :
        SchedState).active_task = some 5 := by
  decide

/-- C3 (amended): for every call of task_destroy whose target handle equals the
active task, the operation appends the target to the exited list, clears the
active-task pointer, and raises the start handler; it does not free the
target's TCB or stack, and it leaves the target's TCB (in particular its state
field) unchanged. The result equation exhibits all of this: only exited_tasks
and active_task change, the freed list is empty, and the SVCall is raised. -/
theorem task_destroy_active_spec (s : SchedState) (a : TaskId)
    (h : s.active_task = some a) :
    task_destroy s a =
      some ({ s with exited_tasks := s.exited_tasks ++ [a], active_task := none },
            ⟨true, []⟩) := by
  unfold task_destroy
  rw [h, if_pos rfl]

/-- Concrete instantiation of the amended C3 theorem with its hypothesis
discharged. -/
theorem task_destroy_active_spec_witness :
    ((⟨[(5, mkStatus TASK_ACTIVE 1 0)], some 5, [[], []], [], []⟩ :
        SchedState).active_task = some 5) ∧
    task_destroy ⟨[(5, mkStatus TASK_ACTIVE 1 0)], some 5, [[], []], [], []⟩ 5 =
      some ({ (⟨[(5, mkStatus TASK_ACTIVE 1 0)], some 5, [[], []], [], []⟩ :
                SchedState) with
              exited_tasks := [] ++ [5], active_task := none },
            ⟨true, []⟩) :=
  ⟨rfl, task_destroy_active_spec _ 5 rfl⟩

/-- C10: task_yield and block_active_task unconditionally dereference the
active task pointer: with no active task both fault (the null dereference,
embedded as none); with an active (live) task both are total, task_yield
marking it READY and block_active_task marking it BLOCKED with the given
cause, and each sets the pendable-service bit (the true flag). -/
theorem yield_block_active_spec (s : SchedState) (c : block_reason) :
    (s.active_task = none → task_yield s = none ∧ block_active_task s c = none) ∧
    (∀ a t, s.active_task = some a → tcbOf s a = some t →
      task_yield s =
        some ({ s with tcbs := tcbSet s.tcbs a { t with state := TASK_READY } },
              true) ∧
      block_active_task s c =
        some ({ s with tcbs := tcbSet s.tcbs a { t with state := TASK_BLOCKED, blockcause := c } }, true)) := by
  constructor
  · intro h
    constructor
    · unfold task_yield; rw [h]
    · unfold block_active_task; rw [h]
  · intro a t ha ht
    constructor
    · simp [task_yield, ha, ht]
    · simp [block_active_task, ha, ht]

/-- Concrete instantiation of the C10 theorem: the fault case at a state with
no active task, and the total case at a state with a live active task. -/
theorem yield_block_active_spec_witness :
    ((⟨[], none, [], [], []⟩ : SchedState).active_task = none) ∧
    task_yield ⟨[], none, [], [], []⟩ = none ∧
    ((⟨[(0, mkStatus TASK_ACTIVE 1 0)], some 0, [[]], [], []⟩ :
        SchedState).active_task = some 0) ∧
    (tcbOf ⟨[(0, mkStatus TASK_ACTIVE 1 0)], some 0, [[]], [], []⟩ 0 =
      some (mkStatus TASK_ACTIVE 1 0)) ∧
    task_yield ⟨[(0, mkStatus TASK_ACTIVE 1 0)], some 0, [[]], [], []⟩ =
      some ({ (⟨[(0, mkStatus TASK_ACTIVE 1 0)], some 0, [[]], [], []⟩ : SchedState) with tcbs := tcbSet [(0, mkStatus TASK_ACTIVE 1 0)] 0 { mkStatus TASK_ACTIVE 1 0 with state := TASK_READY } }, true) ∧
    block_active_task ⟨[(0, mkStatus TASK_ACTIVE 1 0)], some 0, [[]], [], []⟩ 7 =
      some ({ (⟨[(0, mkStatus TASK_ACTIVE 1 0)], some 0, [[]], [], []⟩ : SchedState) with tcbs := tcbSet [(0, mkStatus TASK_ACTIVE 1 0)] 0 { mkStatus TASK_ACTIVE 1 0 with state := TASK_BLOCKED, blockcause := 7 } }, true) :=
  ⟨rfl,
   ((yield_block_active_spec ⟨[], none, [], [], []⟩ 7).1 rfl).1,
   rfl, rfl,
   ((yield_block_active_spec ⟨[(0, mkStatus TASK_ACTIVE 1 0)], some 0, [[]], [], []⟩ 7).2 0 (mkStatus TASK_ACTIVE 1 0) rfl (by decide)).1,
   ((yield_block_active_spec ⟨[(0, mkStatus TASK_ACTIVE 1 0)], some 0, [[]], [], []⟩ 7).2 0 (mkStatus TASK_ACTIVE 1 0) rfl (by decide)).2⟩

/-- C5: the source checks cfg->task_priority > RTOS_PRIORITY_COUNT (strict),
so a configured priority equal to the priority count is accepted and the call
returns a non-null handle (and then indexes ready_tasks one past its end),
where the claim and the spec require a null return for priority >= P. Here
P = 4 and the configured priority is 4. -/
theorem task_create_priority_eq_count_accepted :
    (task_create ⟨4, 2, 128, 0, 64⟩ ⟨some 100, none, true⟩ sEmpty4 1 0
        (some ⟨4, some 7000, 64, none⟩) 3000).handle = some 100 ∧
    4 ≥ (⟨4, 2, 128, 0, 64⟩ : RTOSConfig).RTOS_PRIORITY_COUNT := by
  decide

/-- C6 counterexample: on the invalid-priority failing path (configured
priority 5 with P = 4) the TCB already allocated at address 100 is not freed
before the null return, so "every allocation performed by that call is freed"
fails on the code. -/
theorem task_create_priority_leak_counterexample :
    (task_create ⟨4, 2, 128, 0, 64⟩ ⟨some 100, some 2000, true⟩ sEmpty4 1 0
        (some ⟨5, none, 64, none⟩) 3000).handle = none ∧
    (task_create ⟨4, 2, 128, 0, 64⟩ ⟨some 100, some 2000, true⟩ sEmpty4 1 0
        (some ⟨5, none, 64, none⟩) 3000).allocated = [100] ∧
    (task_create ⟨4, 2, 128, 0, 64⟩ ⟨some 100, some 2000, true⟩ sEmpty4 1 0
        (some ⟨5, none, 64, none⟩) 3000).freed = [] := by
  decide

/-- C6 (amended): on the failing paths of task_create caused by a failed TCB
allocation or a failed stack allocation, every allocation performed by that
call is freed before null is returned and the scheduler state is unchanged.
(The invalid-priority path is excluded: it returns null without freeing the
TCB; the append-failure path is excluded: it frees the stack through the wrong
pointer and overwrites the ready-queue slot.) -/
theorem task_create_alloc_failure_cleanup (cc : RTOSConfig) (s : SchedState)
    (entry arg exit_handler : Nat) (cfg : Option task_config) :
    (∀ stk ap, task_create cc ⟨none, stk, ap⟩ s entry arg cfg exit_handler =
      ⟨s, none, [], []⟩) ∧
    (∀ tid ap, entry ≠ 0 →
      (∀ c, cfg = some c →
        c.task_priority ≤ cc.RTOS_PRIORITY_COUNT ∧ c.task_stack = none) →
      task_create cc ⟨some tid, none, ap⟩ s entry arg cfg exit_handler =
        ⟨s, none, [tid], [tid]⟩) := by
  constructor
  · intro stk ap
    by_cases he : entry = 0
    · simp [task_create, he]
    · simp [task_create, he]
  · intro tid ap he hc
    cases cfg with
    | none => simp [task_create, he]
    | some c =>
      obtain ⟨hple, hstk⟩ := hc c rfl
      have hnp : ¬ (c.task_priority > cc.RTOS_PRIORITY_COUNT) := by omega
      simp [task_create, he, hnp, hstk]

/-- Concrete instantiation of the amended C6 theorem with its hypotheses
discharged: a failed TCB allocation and a failed default-stack allocation. -/
theorem task_create_alloc_failure_cleanup_witness :
    task_create ⟨4, 2, 128, 0, 64⟩ ⟨none, some 2000, true⟩ sEmpty4 1 0 none 3000 =
      ⟨sEmpty4, none, [], []⟩ ∧
    (1 ≠ 0) ∧
    task_create ⟨4, 2, 128, 0, 64⟩ ⟨some 100, none, true⟩ sEmpty4 1 0 none 3000 =
      ⟨sEmpty4, none, [100], [100]⟩ :=
  ⟨(task_create_alloc_failure_cleanup ⟨4, 2, 128, 0, 64⟩ sEmpty4 1 0 3000 none).1
     (some 2000) true,
   by decide,
   (task_create_alloc_failure_cleanup ⟨4, 2, 128, 0, 64⟩ sEmpty4 1 0 3000 none).2
     100 true (by decide) (fun c h => nomatch h)⟩

/-- C7: unblock_task leaves the scheduler state unchanged unless the target is
BLOCKED with a matching recorded cause; when the guard holds it marks the
target READY, clears its block cause, removes it from the blocked list, and
appends it to the tail of the ready queue at its priority, leaving the active
task and every other ready queue unchanged. -/
theorem unblock_task_spec (s : SchedState) (tsk : TaskId) (t : task_status)
    (reason : block_reason) (ht : tcbOf s tsk = some t)
    (hnodup : (allListed s).Nodup) :
    (¬ (t.state = TASK_BLOCKED ∧ t.blockcause = reason) →
      unblock_task s tsk reason = some s) ∧
    (t.state = TASK_BLOCKED → t.blockcause = reason →
      unblock_task s tsk reason =
        some { s with tcbs := tcbSet s.tcbs tsk { t with state := TASK_READY, blockcause := BLOCK_NONE }, blocked_tasks := s.blocked_tasks.erase tsk, ready_tasks := s.ready_tasks.set t.priority (readyQ s t.priority ++ [tsk]) } ∧
      (∀ s2, unblock_task s tsk reason = some s2 →
        tcbOf s2 tsk = some { t with state := TASK_READY, blockcause := BLOCK_NONE } ∧
        tsk ∉ s2.blocked_tasks ∧
        (t.priority < s.ready_tasks.length →
          readyQ s2 t.priority = readyQ s t.priority ++ [tsk]) ∧
        (∀ q, q ≠ t.priority → readyQ s2 q = readyQ s q) ∧
        s2.active_task = s.active_task ∧
        s2.exited_tasks = s.exited_tasks)) := by
  constructor
  · intro hng
    have hcond : t.state ≠ TASK_BLOCKED ∨ t.blockcause ≠ reason := by tauto
    simp only [unblock_task, ht]
    rw [if_pos hcond]
  · intro hb hc
    have hcond : ¬ (t.state ≠ TASK_BLOCKED ∨ t.blockcause ≠ reason) := by
      simp [hb, hc]
    have heq : unblock_task s tsk reason =
        some { s with tcbs := tcbSet s.tcbs tsk { t with state := TASK_READY, blockcause := BLOCK_NONE }, blocked_tasks := s.blocked_tasks.erase tsk, ready_tasks := s.ready_tasks.set t.priority (readyQ s t.priority ++ [tsk]) } := by
      simp only [unblock_task, ht]
      rw [if_neg hcond]
    refine ⟨heq, ?_⟩
    intro s2 h2
    rw [heq] at h2
    injection h2 with h2
    subst h2
    have hsome : (tcbLookup s.tcbs tsk).isSome := by
      unfold tcbOf at ht
      rw [ht]
      rfl
    refine ⟨?_, ?_, ?_, ?_, rfl, rfl⟩
    · exact tcbSet_lookup_self s.tcbs tsk _ hsome
    · have hbn : s.blocked_tasks.Nodup := (sched_nodup_parts s hnodup).2.1
      exact List.Nodup.not_mem_erase hbn
    · intro hlt
      exact getD_set_self s.ready_tasks t.priority _ [] hlt
    · intro q hq
      exact getD_set_ne s.ready_tasks t.priority q _ [] (fun e => hq e.symm)

/-- Concrete instantiation of the C7 theorem: a stale unblock (wrong cause) is
a no-op, and a matching unblock moves the task to its ready queue. -/
theorem unblock_task_spec_witness :
    (tcbOf ⟨[(3, mkStatus TASK_BLOCKED 2 9)], none, [[], [], []], [3], []⟩ 3 =
      some (mkStatus TASK_BLOCKED 2 9)) ∧
    (allListed ⟨[(3, mkStatus TASK_BLOCKED 2 9)], none, [[], [], []], [3], []⟩).Nodup ∧
    unblock_task ⟨[(3, mkStatus TASK_BLOCKED 2 9)], none, [[], [], []], [3], []⟩ 3 8 =
      some ⟨[(3, mkStatus TASK_BLOCKED 2 9)], none, [[], [], []], [3], []⟩ ∧
    unblock_task ⟨[(3, mkStatus TASK_BLOCKED 2 9)], none, [[], [], []], [3], []⟩ 3 9 =
      some { (⟨[(3, mkStatus TASK_BLOCKED 2 9)], none, [[], [], []], [3], []⟩ : SchedState) with tcbs := tcbSet [(3, mkStatus TASK_BLOCKED 2 9)] 3 { mkStatus TASK_BLOCKED 2 9 with state := TASK_READY, blockcause := BLOCK_NONE }, blocked_tasks := List.erase [3] 3, ready_tasks := List.set [[], [], []] 2 (readyQ ⟨[(3, mkStatus TASK_BLOCKED 2 9)], none, [[], [], []], [3], []⟩ 2 ++ [3]) } :=
  ⟨rfl, by decide,
   (unblock_task_spec ⟨[(3, mkStatus TASK_BLOCKED 2 9)], none, [[], [], []], [3], []⟩
      3 (mkStatus TASK_BLOCKED 2 9) 8 rfl (by decide)).1 (by decide),
   ((unblock_task_spec ⟨[(3, mkStatus TASK_BLOCKED 2 9)], none, [[], [], []], [3], []⟩
      3 (mkStatus TASK_BLOCKED 2 9) 9 rfl (by decide)).2 rfl rfl).1⟩

/-- C8 counterexample: the stack initializer writes seventeen words, all at
distinct addresses, so the claim's "writes a 16-word frame" fails on the code
(the frame is the 16 architectural words plus the exception-return word). -/
theorem stack_frame_word_count_counterexample :
    (initialize_task_stack 3000 1000 500 7).1.length = 17 ∧
    ((initialize_task_stack 3000 1000 500 7).1.map Prod.fst).Nodup ∧
    ¬ (initialize_task_stack 3000 1000 500 7).1.length = 16 := by
  decide

/-- C8 (amended): for every initial stack pointer, entry function and argument,
the stack initializer first rounds the pointer down to a 4-byte boundary, then
writes a 17-word frame whose slots, from highest to lowest address, are: the
status word with the Thumb bit set, the return address (entry), the
link-register slot holding the exit trampoline, four scratch-register
sentinels, the argument in the register-0 slot, the exception-return value
selecting thread mode on the process stack, and eight callee-saved sentinels;
the returned stack pointer points at the last (lowest-address) word written. -/
theorem initialize_task_stack_spec (eh sp pc a0 : Nat)
    (h64 : 64 ≤ sp - sp % 4) :
    ∃ al, al = sp - sp % 4 ∧ al % 4 = 0 ∧ al ≤ sp ∧
    initialize_task_stack eh sp pc a0 =
      ([ (al, INITIAL_xPSR), (al - 4, pc), (al - 8, eh), (al - 12, 0x12121212),
         (al - 16, 0x03030303), (al - 20, 0x02020202), (al - 24, 0x01010101),
         (al - 28, a0), (al - 32, INITIAL_EXEC_RETURN), (al - 36, 0x11111111),
         (al - 40, 0x10101010), (al - 44, 0x09090909), (al - 48, 0x08080808),
         (al - 52, 0x07070707), (al - 56, 0x06060606), (al - 60, 0x05050505),
         (al - 64, 0x04040404) ], al - 64) ∧
    Nat.testBit INITIAL_xPSR 24 = true ∧
    (initialize_task_stack eh sp pc a0).1.length = 17 ∧
    (initialize_task_stack eh sp pc a0).2 = al - 64 ∧
    ((initialize_task_stack eh sp pc a0).1.map Prod.fst).Nodup ∧
    (∀ w ∈ (initialize_task_stack eh sp pc a0).1, al - 64 ≤ w.1 ∧ w.1 ≤ al) := by
  refine ⟨sp - sp % 4, rfl, by omega, by omega, rfl, by decide, rfl, rfl, ?_, ?_⟩
  · simp [initialize_task_stack, List.nodup_cons, not_or]
    omega
  · intro w hw
    simp only [initialize_task_stack, List.mem_cons, List.not_mem_nil, or_false] at hw
    rcases hw with h | h | h | h | h | h | h | h | h | h | h | h | h | h | h | h | h <;>
      (subst h; constructor <;> omega)

/-- Concrete instantiation of the amended C8 theorem with its alignment
hypothesis discharged. -/
theorem initialize_task_stack_spec_witness :
    64 ≤ 1000 - 1000 % 4 ∧
    ∃ al, al = 1000 - 1000 % 4 ∧ al % 4 = 0 ∧ al ≤ 1000 ∧
    initialize_task_stack 3000 1000 500 7 =
      ([ (al, INITIAL_xPSR), (al - 4, 500), (al - 8, 3000), (al - 12, 0x12121212),
         (al - 16, 0x03030303), (al - 20, 0x02020202), (al - 24, 0x01010101),
         (al - 28, 7), (al - 32, INITIAL_EXEC_RETURN), (al - 36, 0x11111111),
         (al - 40, 0x10101010), (al - 44, 0x09090909), (al - 48, 0x08080808),
         (al - 52, 0x07070707), (al - 56, 0x06060606), (al - 60, 0x05050505),
         (al - 64, 0x04040404) ], al - 64) ∧
    Nat.testBit INITIAL_xPSR 24 = true ∧
    (initialize_task_stack 3000 1000 500 7).1.length = 17 ∧
    (initialize_task_stack 3000 1000 500 7).2 = al - 64 ∧
    ((initialize_task_stack 3000 1000 500 7).1.map Prod.fst).Nodup ∧
    (∀ w ∈ (initialize_task_stack 3000 1000 500 7).1, al - 64 ≤ w.1 ∧ w.1 ≤ al) :=
  ⟨by decide, initialize_task_stack_spec 3000 1000 500 7 (by decide)⟩

/-- C9 counterexample: with tick frequency 1 Hz and AHB clock 2^27 Hz the
reload value is 2^24, which exceeds the 24-bit limit, and enable_systick
exits with the bad-parameter code ERR_BADPARAM, not a scheduler-error code,
so the claim's "process-exit syscall with a scheduler-error code" fails on the
code for the tick-overflow case. -/
theorem systick_overflow_exit_code_counterexample :
    enable_systick 1 (2 ^ 27) =
      SysTickOutcome.fatal log_level.L_ERROR err_t.ERR_BADPARAM ∧
    err_t.ERR_BADPARAM ≠ err_t.ERR_SCHEDULER := by
  decide

/-- C9 (amended): enable_systick computes the tick reload value as the AHB
clock frequency divided by 8 and then by the configured tick frequency, and
when that value exceeds the 24-bit reload limit it logs at error level and
calls the process-exit syscall with the bad-parameter code ERR_BADPARAM (not a
scheduler-error code); otherwise it programs LOAD with reload - 1 and enables
the tick. rtos_start logs at error level and exits with the scheduler-error
code both when the idle task cannot be created and when the supervisor call
returns. -/
theorem fatal_error_paths_spec (f hclk : Nat) (cc : RTOSConfig)
    (al : AllocOracle) (s : SchedState) (idle_addr exit_handler : Nat) :
    (((hclk % 2 ^ 32) >>> 3) / f > SysTick_LOAD_RELOAD_Msk →
      enable_systick f hclk =
        SysTickOutcome.fatal log_level.L_ERROR err_t.ERR_BADPARAM) ∧
    (¬ (((hclk % 2 ^ 32) >>> 3) / f > SysTick_LOAD_RELOAD_Msk) →
      enable_systick f hclk =
        SysTickOutcome.ok ⟨(((hclk % 2 ^ 32) >>> 3) / f + (2 ^ 32 - 1)) % 2 ^ 32, true, true⟩) ∧
    ((task_create cc al s idle_addr 0
        (some ⟨cc.IDLE_TASK_PRIORITY, none, cc.IDLE_TASK_STACK_SIZE, some "Idle Task"⟩)
        exit_handler).handle = none →
      rtos_start cc al s idle_addr exit_handler false =
        StartOutcome.fatal log_level.L_ERROR err_t.ERR_SCHEDULER) ∧
    (∀ h, (task_create cc al s idle_addr 0
        (some ⟨cc.IDLE_TASK_PRIORITY, none, cc.IDLE_TASK_STACK_SIZE, some "Idle Task"⟩)
        exit_handler).handle = some h →
      rtos_start cc al s idle_addr exit_handler true =
        StartOutcome.fatal log_level.L_ERROR err_t.ERR_SCHEDULER) := by
  refine ⟨?_, ?_, ?_, ?_⟩
  · intro hover
    unfold enable_systick
    rw [if_pos hover]
  · intro hok
    unfold enable_systick
    rw [if_neg hok]
  · intro hnone
    simp only [rtos_start, hnone]
  · intro h hsome
    simp only [rtos_start, hsome, if_pos]

/-- Concrete instantiation of the amended C9 theorem discharging each
hypothesis: a tick-reload overflow, a valid tick reload, a failed idle-task
creation, and a supervisor call that returns after a successful creation. -/
theorem fatal_error_paths_spec_witness :
    ((((2 ^ 27) % 2 ^ 32) >>> 3) / 1 > SysTick_LOAD_RELOAD_Msk ∧
      enable_systick 1 (2 ^ 27) =
        SysTickOutcome.fatal log_level.L_ERROR err_t.ERR_BADPARAM) ∧
    (¬ (((800 % 2 ^ 32) >>> 3) / 1 > SysTick_LOAD_RELOAD_Msk) ∧
      enable_systick 1 800 = SysTickOutcome.ok ⟨99, true, true⟩) ∧
    ((task_create ⟨4, 2, 128, 0, 64⟩ ⟨none, none, true⟩ sEmpty4 1 0
        (some ⟨0, none, 64, some "Idle Task"⟩) 3000).handle = none ∧
      rtos_start ⟨4, 2, 128, 0, 64⟩ ⟨none, none, true⟩ sEmpty4 1 3000 false =
        StartOutcome.fatal log_level.L_ERROR err_t.ERR_SCHEDULER) ∧
    ((task_create ⟨4, 2, 128, 0, 64⟩ ⟨some 100, some 2000, true⟩ sEmpty4 1 0
        (some ⟨0, none, 64, some "Idle Task"⟩) 3000).handle = some 100 ∧
      rtos_start ⟨4, 2, 128, 0, 64⟩ ⟨some 100, some 2000, true⟩ sEmpty4 1 3000 true =
        StartOutcome.fatal log_level.L_ERROR err_t.ERR_SCHEDULER) :=
  ⟨⟨by decide,
    (fatal_error_paths_spec 1 (2 ^ 27) ⟨4, 2, 128, 0, 64⟩ ⟨none, none, true⟩
      sEmpty4 1 3000).1 (by decide)⟩,
   ⟨by decide,
    by
      have := (fatal_error_paths_spec 1 800 ⟨4, 2, 128, 0, 64⟩ ⟨none, none, true⟩
        sEmpty4 1 3000).2.1 (by decide)
      simpa using this⟩,
   ⟨by decide,
    (fatal_error_paths_spec 1 0 ⟨4, 2, 128, 0, 64⟩ ⟨none, none, true⟩
      sEmpty4 1 3000).2.2.1 (by decide)⟩,
   ⟨by decide,
    (fatal_error_paths_spec 1 0 ⟨4, 2, 128, 0, 64⟩ ⟨some 100, some 2000, true⟩
      sEmpty4 1 3000).2.2.2 100 (by decide)⟩⟩

/-- C4: for every call of task_destroy whose target is not the active task and
whose target state is BLOCKED or READY, the operation removes the target from
the list derived from its state (the blocked list if BLOCKED, the ready queue
at the target's priority if READY), frees the target's stack if and only if
the stack was allocated by the OS (stack_allocated), and frees the TCB; the
active-task pointer and all other tasks' list memberships are unchanged. The
third component states the shared facts for every non-active destroy. -/
theorem task_destroy_inactive_spec (s : SchedState) (tsk : TaskId)
    (t : task_status) (hne : s.active_task ≠ some tsk)
    (ht : tcbOf s tsk = some t) (hnodup : (allListed s).Nodup)
    (hpri : t.priority < s.ready_tasks.length) :
    (t.state = TASK_BLOCKED →
      task_destroy s tsk = some
        ({ s with blocked_tasks := s.blocked_tasks.erase tsk, tcbs := tcbFree s.tcbs tsk },
         ⟨false, (if t.stack_allocated then [t.stack_end] else []) ++ [tsk]⟩) ∧
      tsk ∉ s.blocked_tasks.erase tsk) ∧
    (t.state = TASK_READY →
      task_destroy s tsk = some
        ({ s with ready_tasks := s.ready_tasks.set t.priority ((readyQ s t.priority).erase tsk), tcbs := tcbFree s.tcbs tsk },
         ⟨false, (if t.stack_allocated then [t.stack_end] else []) ++ [tsk]⟩) ∧
      tsk ∉ (readyQ s t.priority).erase tsk) ∧
    (∀ s2 eff, task_destroy s tsk = some (s2, eff) →
      s2.active_task = s.active_task ∧
      eff.raised_svcall = false ∧
      tsk ∈ eff.freed ∧
      (t.stack_allocated = true → t.stack_end ∈ eff.freed) ∧
      (t.stack_allocated = false → eff.freed = [tsk]) ∧
      (∀ x, x ≠ tsk →
        (∀ q, x ∈ readyQ s2 q ↔ x ∈ readyQ s q) ∧
        (x ∈ s2.blocked_tasks ↔ x ∈ s.blocked_tasks) ∧
        (x ∈ s2.exited_tasks ↔ x ∈ s.exited_tasks))) := by
  have hcmp : ¬ (some tsk = s.active_task) := fun e => hne e.symm
  refine ⟨?_, ?_, ?_⟩
  · intro hb
    refine ⟨by simp [task_destroy, hcmp, ht, hb], ?_⟩
    exact List.Nodup.not_mem_erase (sched_nodup_parts s hnodup).2.1
  · intro hr
    refine ⟨by simp [task_destroy, hcmp, ht, hr], ?_⟩
    exact List.Nodup.not_mem_erase (readyQ_nodup s hnodup t.priority hpri)
  · intro s2 eff heq
    cases hstate : t.state with
    | TASK_BLOCKED =>
      have hid : task_destroy s tsk = some
          ({ s with blocked_tasks := s.blocked_tasks.erase tsk, tcbs := tcbFree s.tcbs tsk },
           ⟨false, (if t.stack_allocated then [t.stack_end] else []) ++ [tsk]⟩) := by
        simp [task_destroy, hcmp, ht, hstate]
      rw [hid] at heq
      injection heq with h1
      injection h1 with hs2 heff
      subst hs2; subst heff
      refine ⟨rfl, rfl, ?_, ?_, ?_, ?_⟩
      · exact List.mem_append.2 (Or.inr (by simp))
      · intro hsa; simp [hsa]
      · intro hsa; simp [hsa]
      · intro x hx
        exact ⟨fun q => Iff.rfl, List.mem_erase_of_ne hx, Iff.rfl⟩
    | TASK_READY =>
      have hid : task_destroy s tsk = some
          ({ s with ready_tasks := s.ready_tasks.set t.priority ((readyQ s t.priority).erase tsk), tcbs := tcbFree s.tcbs tsk },
           ⟨false, (if t.stack_allocated then [t.stack_end] else []) ++ [tsk]⟩) := by
        simp [task_destroy, hcmp, ht, hstate]
      rw [hid] at heq
      injection heq with h1
      injection h1 with hs2 heff
      subst hs2; subst heff
      refine ⟨rfl, rfl, ?_, ?_, ?_, ?_⟩
      · exact List.mem_append.2 (Or.inr (by simp))
      · intro hsa; simp [hsa]
      · intro hsa; simp [hsa]
      · intro x hx
        refine ⟨?_, Iff.rfl, Iff.rfl⟩
        intro q
        by_cases hqp : q = t.priority
        · have hstep : readyQ { s with ready_tasks := s.ready_tasks.set t.priority ((readyQ s t.priority).erase tsk), tcbs := tcbFree s.tcbs tsk } t.priority = (readyQ s t.priority).erase tsk := by
            unfold readyQ
            exact getD_set_self s.ready_tasks t.priority _ [] hpri
          rw [hqp, hstep]
          exact List.mem_erase_of_ne hx
        · have hstep : readyQ { s with ready_tasks := s.ready_tasks.set t.priority ((readyQ s t.priority).erase tsk), tcbs := tcbFree s.tcbs tsk } q = readyQ s q := by
            unfold readyQ
            exact getD_set_ne s.ready_tasks t.priority q _ [] (fun e => hqp e.symm)
          rw [hstep]
    | TASK_EXITED =>
      have hid : task_destroy s tsk = some
          ({ s with tcbs := tcbFree s.tcbs tsk },
           ⟨false, (if t.stack_allocated then [t.stack_end] else []) ++ [tsk]⟩) := by
        simp [task_destroy, hcmp, ht, hstate]
      rw [hid] at heq
      injection heq with h1
      injection h1 with hs2 heff
      subst hs2; subst heff
      refine ⟨rfl, rfl, ?_, ?_, ?_, ?_⟩
      · exact List.mem_append.2 (Or.inr (by simp))
      · intro hsa; simp [hsa]
      · intro hsa; simp [hsa]
      · intro x hx
        exact ⟨fun q => Iff.rfl, Iff.rfl, Iff.rfl⟩
    | TASK_ACTIVE =>
      have hid : task_destroy s tsk = some
          ({ s with tcbs := tcbFree s.tcbs tsk },
           ⟨false, (if t.stack_allocated then [t.stack_end] else []) ++ [tsk]⟩) := by
        simp [task_destroy, hcmp, ht, hstate]
      rw [hid] at heq
      injection heq with h1
      injection h1 with hs2 heff
      subst hs2; subst heff
      refine ⟨rfl, rfl, ?_, ?_, ?_, ?_⟩
      · exact List.mem_append.2 (Or.inr (by simp))
      · intro hsa; simp [hsa]
      · intro hsa; simp [hsa]
      · intro x hx
        exact ⟨fun q => Iff.rfl, Iff.rfl, Iff.rfl⟩

/-- Concrete state for the C4 witness: task 1 READY at priority 1, task 2
BLOCKED, no active task. -/
def sD : SchedState :=
  ⟨[(1, mkStatus TASK_READY 1 0), (2, mkStatus TASK_BLOCKED 2 9)], none,
   [[], [1], []], [2], []⟩

/-- Concrete instantiation of the C4 theorem with its hypotheses discharged:
destroying the READY non-active task 1 removes it from ready queue 1, frees
its stack (address 4000) and its TCB (address 1). -/
theorem task_destroy_inactive_spec_witness :
    (sD.active_task ≠ some 1) ∧
    (tcbOf sD 1 = some (mkStatus TASK_READY 1 0)) ∧
    (allListed sD).Nodup ∧
    ((mkStatus TASK_READY 1 0).priority < sD.ready_tasks.length) ∧
    ((mkStatus TASK_READY 1 0).state = TASK_READY →
      task_destroy sD 1 = some
        ({ sD with ready_tasks := sD.ready_tasks.set (mkStatus TASK_READY 1 0).priority ((readyQ sD (mkStatus TASK_READY 1 0).priority).erase 1), tcbs := tcbFree sD.tcbs 1 },
         ⟨false, (if (mkStatus TASK_READY 1 0).stack_allocated then [(mkStatus TASK_READY 1 0).stack_end] else []) ++ [1]⟩) ∧
      (1 : TaskId) ∉ (readyQ sD (mkStatus TASK_READY 1 0).priority).erase 1) :=
  ⟨by decide, rfl, by decide, by decide,
   (task_destroy_inactive_spec sD 1 (mkStatus TASK_READY 1 0) (by decide) rfl
      (by decide) (by decide)).2.1⟩

/-- Reparenting equation when no previous active task exists. -/
theorem select_reparent_eq_none (s1 : SchedState) (h : s1.active_task = none) :
    select_reparent s1 = some s1 := by
  unfold select_reparent
  rw [h]

/-- Reparenting equation when a previous active task exists and is live. -/
theorem select_reparent_eq_some (s1 : SchedState) (a : TaskId)
    (prev : task_status) (h : s1.active_task = some a)
    (hp : tcbOf s1 a = some prev) :
    select_reparent s1 =
      (if prev.state = TASK_BLOCKED then
        some { s1 with blocked_tasks := s1.blocked_tasks ++ [a] }
       else
        some { s1 with ready_tasks := s1.ready_tasks.set prev.priority (readyQ s1 prev.priority ++ [a]) }) := by
  unfold select_reparent
  simp only [h, hp]

/-- Dispatch equation when the scanned queue is empty: no change. -/
theorem select_after_scan_eq_nil (s : SchedState) (i : Nat)
    (h : readyQ s i = []) : select_after_scan s i = some s := by
  unfold select_after_scan
  rw [h]

/-- Dispatch equation when the scanned queue is non-empty: pop the head,
reparent, then activate the popped task. -/
theorem select_after_scan_eq_cons (s : SchedState) (i : Nat) (n : TaskId)
    (rest : List TaskId) (h : readyQ s i = n :: rest) :
    select_after_scan s i =
      (select_reparent { s with ready_tasks := s.ready_tasks.set i rest }).bind
        (fun s2 => (tcbOf s2 n).map
          (fun neu => { s2 with active_task := some n, tcbs := tcbSet s2.tcbs n { neu with state := TASK_ACTIVE } })) := by
  unfold select_after_scan
  rw [h]
  show (match select_reparent { s with ready_tasks := s.ready_tasks.set i rest } with
    | none => none
    | some s2 =>
      match tcbOf s2 n with
      | none => none
      | some neu =>
        some { s2 with active_task := some n, tcbs := tcbSet s2.tcbs n { neu with state := TASK_ACTIVE } }) = _
  cases select_reparent { s with ready_tasks := s.ready_tasks.set i rest } with
  | none => rfl
  | some s2 =>
    show (match tcbOf s2 n with
      | none => none
      | some neu =>
        some { s2 with active_task := some n, tcbs := tcbSet s2.tcbs n { neu with state := TASK_ACTIVE } }) =
      (tcbOf s2 n).map
        (fun neu => { s2 with active_task := some n, tcbs := tcbSet s2.tcbs n { neu with state := TASK_ACTIVE } })
    cases tcbOf s2 n with
    | none => rfl
    | some neu => rfl

/-- C1 (amended): select_active_task chooses as the new active task the head
of the highest-priority non-empty ready queue and removes it from that queue,
setting its state to ACTIVE; if every ready queue is empty, the current active
task keeps running and the scheduler state is unchanged. After the dispatch,
every ready queue at a priority strictly greater than the new active task's
priority is empty except possibly the queue at the previously-active task's
own priority, which then holds exactly that re-appended task (the source
re-appends the previous active task after choosing the new one, so the
original claim's unqualified emptiness fails). -/
theorem select_active_task_dispatch_spec (P : Nat) (s : SchedState)
    (hP : 1 ≤ P) (hlen : s.ready_tasks.length = P)
    (hpri : ∀ i, i < P → ∀ id ∈ readyQ s i,
      Option.map task_status.priority (tcbOf s id) = some i)
    (hnodup : (allListed s).Nodup)
    (hactive : ∀ a, s.active_task = some a → a ∉ allListed s ∧
      ∃ ta, tcbOf s a = some ta ∧ ta.priority < P) :
    ((∀ j, j < P → readyQ s j = []) → select_active_task P s = some s) ∧
    (∀ p n rest, p < P → readyQ s p = n :: rest →
      (∀ j, p < j → j < P → readyQ s j = []) →
      ∃ s2, select_active_task P s = some s2 ∧
        s2.active_task = some n ∧
        tcbOf s2 n = Option.map (fun u => { u with state := TASK_ACTIVE }) (tcbOf s n) ∧
        Option.map task_status.priority (tcbOf s2 n) = some p ∧
        n ∉ readyQ s2 p ∧
        (∀ q, p < q → q < P →
          readyQ s2 q = [] ∨ ∃ a, s.active_task = some a ∧ readyQ s2 q = [a])) := by
  constructor
  · intro hall
    unfold select_active_task
    apply select_after_scan_eq_nil
    apply hall
    have := scan_ready_le s (P - 1)
    omega
  · intro p n rest hp hq habove
    have hplen : p < s.ready_tasks.length := by omega
    have hscan : scan_ready s (P - 1) = p := by
      apply scan_ready_eq s p (P - 1) (by omega)
      · exact Or.inr (by rw [hq]; exact List.cons_ne_nil n rest)
      · intro j h1 h2
        exact habove j h1 (by omega)
    have hnm : n ∈ readyQ s p := by rw [hq]; exact List.mem_cons_self n rest
    have hmap := hpri p hp n hnm
    rcases hopt : tcbOf s n with _ | tn
    · rw [hopt] at hmap; exact absurd hmap (by simp)
    rw [hopt] at hmap
    have htnp : tn.priority = p := by simpa using hmap
    have hsome : (tcbLookup s.tcbs n).isSome := by
      rw [show tcbLookup s.tcbs n = some tn from hopt]; rfl
    have hqnodup : (readyQ s p).Nodup := readyQ_nodup s hnodup p hplen
    have hnrest : n ∉ rest := by
      rw [hq] at hqnodup
      exact (List.nodup_cons.1 hqnodup).1
    have hnflat : n ∈ s.ready_tasks.flatten := mem_flatten_of_mem_readyQ s p n hplen hnm
    have hnall : n ∈ allListed s := by
      unfold allListed
      exact List.mem_append.2 (Or.inl (List.mem_append.2 (Or.inl hnflat)))
    have hsel : select_active_task P s = select_after_scan s p := by
      unfold select_active_task; rw [hscan]
    have hlookfin : tcbLookup (tcbSet s.tcbs n { tn with state := TASK_ACTIVE }) n =
        some { tn with state := TASK_ACTIVE } :=
      tcbSet_lookup_self s.tcbs n _ hsome
    cases hact : s.active_task with
    | none =>
      have hrep : select_reparent { s with ready_tasks := s.ready_tasks.set p rest } =
          some { s with ready_tasks := s.ready_tasks.set p rest } :=
        select_reparent_eq_none _ hact
      have hopt1 : tcbOf { s with ready_tasks := s.ready_tasks.set p rest } n = some tn := hopt
      refine ⟨{ tcbs := tcbSet s.tcbs n { tn with state := TASK_ACTIVE }, active_task := some n, ready_tasks := s.ready_tasks.set p rest, blocked_tasks := s.blocked_tasks, exited_tasks := s.exited_tasks }, ?_, rfl, ?_, ?_, ?_, ?_⟩
      · rw [hsel, select_after_scan_eq_cons s p n rest hq, hrep]
        simp [hopt1]
      · simpa [tcbOf] using hlookfin
      · rw [show tcbOf { tcbs := tcbSet s.tcbs n { tn with state := TASK_ACTIVE }, active_task := some n, ready_tasks := s.ready_tasks.set p rest, blocked_tasks := s.blocked_tasks, exited_tasks := s.exited_tasks } n = some { tn with state := TASK_ACTIVE } from hlookfin]
        simpa using htnp
      · show n ∉ (s.ready_tasks.set p rest).getD p []
        rw [getD_set_self s.ready_tasks p rest [] hplen]
        exact hnrest
      · intro q hq1 hq2
        left
        show (s.ready_tasks.set p rest).getD q [] = []
        rw [getD_set_ne s.ready_tasks p q rest [] (by omega)]
        exact habove q hq1 hq2
    | some a =>
      obtain ⟨hanotin, ta, hta, htap⟩ := hactive a hact
      have hta1 : tcbOf { s with ready_tasks := s.ready_tasks.set p rest } a = some ta := hta
      have hact1 : ({ s with ready_tasks := s.ready_tasks.set p rest } : SchedState).active_task = some a := hact
      have hrep := select_reparent_eq_some _ a ta hact1 hta1
      have hne_na : n ≠ a := fun e => hanotin (e ▸ hnall)
      by_cases hb : ta.state = TASK_BLOCKED
      · rw [if_pos hb] at hrep
        have hopt2 : tcbOf { { s with ready_tasks := s.ready_tasks.set p rest } with blocked_tasks := ({ s with ready_tasks := s.ready_tasks.set p rest } : SchedState).blocked_tasks ++ [a] } n = some tn := hopt
        refine ⟨{ tcbs := tcbSet s.tcbs n { tn with state := TASK_ACTIVE }, active_task := some n, ready_tasks := s.ready_tasks.set p rest, blocked_tasks := s.blocked_tasks ++ [a], exited_tasks := s.exited_tasks }, ?_, rfl, ?_, ?_, ?_, ?_⟩
        · rw [hsel, select_after_scan_eq_cons s p n rest hq, hrep]
          simp [hopt2]
        · simpa [tcbOf] using hlookfin
        · rw [show tcbOf { tcbs := tcbSet s.tcbs n { tn with state := TASK_ACTIVE }, active_task := some n, ready_tasks := s.ready_tasks.set p rest, blocked_tasks := s.blocked_tasks ++ [a], exited_tasks := s.exited_tasks } n = some { tn with state := TASK_ACTIVE } from hlookfin]
          simpa using htnp
        · show n ∉ (s.ready_tasks.set p rest).getD p []
          rw [getD_set_self s.ready_tasks p rest [] hplen]
          exact hnrest
        · intro q hq1 hq2
          left
          show (s.ready_tasks.set p rest).getD q [] = []
          rw [getD_set_ne s.ready_tasks p q rest [] (by omega)]
          exact habove q hq1 hq2
      · rw [if_neg hb] at hrep
        have hopt3 : tcbOf { { s with ready_tasks := s.ready_tasks.set p rest } with ready_tasks := ({ s with ready_tasks := s.ready_tasks.set p rest } : SchedState).ready_tasks.set ta.priority (readyQ { s with ready_tasks := s.ready_tasks.set p rest } ta.priority ++ [a]) } n = some tn := hopt
        have hsetlen : (s.ready_tasks.set p rest).length = s.ready_tasks.length := by
          exact List.length_set s.ready_tasks p rest
        refine ⟨{ tcbs := tcbSet s.tcbs n { tn with state := TASK_ACTIVE }, active_task := some n, ready_tasks := (s.ready_tasks.set p rest).set ta.priority ((s.ready_tasks.set p rest).getD ta.priority [] ++ [a]), blocked_tasks := s.blocked_tasks, exited_tasks := s.exited_tasks }, ?_, rfl, ?_, ?_, ?_, ?_⟩
        · rw [hsel, select_after_scan_eq_cons s p n rest hq, hrep]
          simp [hopt3, readyQ]
          exact ⟨tn, hopt, rfl⟩
        · simpa [tcbOf] using hlookfin
        · rw [show tcbOf { tcbs := tcbSet s.tcbs n { tn with state := TASK_ACTIVE }, active_task := some n, ready_tasks := (s.ready_tasks.set p rest).set ta.priority ((s.ready_tasks.set p rest).getD ta.priority [] ++ [a]), blocked_tasks := s.blocked_tasks, exited_tasks := s.exited_tasks } n = some { tn with state := TASK_ACTIVE } from hlookfin]
          simpa using htnp
        · show n ∉ ((s.ready_tasks.set p rest).set ta.priority ((s.ready_tasks.set p rest).getD ta.priority [] ++ [a])).getD p []
          by_cases hqp : ta.priority = p
          · rw [hqp, getD_set_self (s.ready_tasks.set p rest) p _ [] (by omega),
              getD_set_self s.ready_tasks p rest [] hplen]
            intro hmem
            rcases List.mem_append.1 hmem with hm | hm
            · exact hnrest hm
            · exact hne_na (List.mem_singleton.1 hm)
          · rw [getD_set_ne (s.ready_tasks.set p rest) ta.priority p _ [] hqp,
              getD_set_self s.ready_tasks p rest [] hplen]
            exact hnrest
        · intro q hq1 hq2
          by_cases hq0 : q = ta.priority
          · right
            refine ⟨a, rfl, ?_⟩
            show ((s.ready_tasks.set p rest).set ta.priority ((s.ready_tasks.set p rest).getD ta.priority [] ++ [a])).getD q [] = [a]
            rw [hq0, getD_set_self (s.ready_tasks.set p rest) ta.priority _ [] (by omega),
              getD_set_ne s.ready_tasks p ta.priority rest [] (by omega)]
            have : s.ready_tasks.getD ta.priority [] = [] := habove ta.priority (by omega) (by omega)
            rw [this]
            rfl
          · left
            show ((s.ready_tasks.set p rest).set ta.priority ((s.ready_tasks.set p rest).getD ta.priority [] ++ [a])).getD q [] = []
            rw [getD_set_ne (s.ready_tasks.set p rest) ta.priority q _ [] (fun e => hq0 e.symm),
              getD_set_ne s.ready_tasks p q rest [] (by omega)]
            exact habove q hq1 hq2

/-- Concrete state for the C1 witness: active task 1 at priority 1 has
yielded (state READY), and only task 2 at priority 0 is ready. -/
def sC1w : SchedState :=
  ⟨[(1, mkStatus TASK_READY 1 0), (2, mkStatus TASK_READY 0 0)], some 1,
   [[2], []], [], []⟩

/-- C1 counterexample: at this state the dispatch makes task 2 (priority 0)
active while re-appending the previously-active task 1 into ready queue 1, so
after the dispatch ready queue 1 is non-empty although 1 > 0, refuting the
claim's "after every dispatch, all ready queues at priorities strictly greater
than the active task's priority are empty". -/
theorem select_yield_to_lower_counterexample :
    Option.map
        (fun s2 => (s2.active_task, Option.map task_status.priority (tcbOf s2 2),
          readyQ s2 1))
        (select_active_task 2
          ⟨[(1, mkStatus TASK_READY 1 0), (2, mkStatus TASK_READY 0 0)], some 1,
           [[2], []], [], []⟩)
      = some (some 2, some 0, [1]) ∧
    (0 : Nat) < 1 ∧ ([1] : List TaskId) ≠ [] := by
  decide

/-- Concrete instantiation of the amended C1 theorem with every hypothesis
discharged. -/
theorem select_active_task_dispatch_spec_witness :
    (1 ≤ 2) ∧
    (sC1w.ready_tasks.length = 2) ∧
    (∀ i, i < 2 → ∀ id ∈ readyQ sC1w i,
      Option.map task_status.priority (tcbOf sC1w id) = some i) ∧
    (allListed sC1w).Nodup ∧
    (∀ a, sC1w.active_task = some a → a ∉ allListed sC1w ∧
      ∃ ta, tcbOf sC1w a = some ta ∧ ta.priority < 2) ∧
    (0 < 2 ∧ readyQ sC1w 0 = 2 :: [] ∧ (∀ j, 0 < j → j < 2 → readyQ sC1w j = [])) ∧
    (∃ s2, select_active_task 2 sC1w = some s2 ∧
      s2.active_task = some 2 ∧
      tcbOf s2 2 = Option.map (fun u => { u with state := TASK_ACTIVE }) (tcbOf sC1w 2) ∧
      Option.map task_status.priority (tcbOf s2 2) = some 0 ∧
      2 ∉ readyQ s2 0 ∧
      (∀ q, 0 < q → q < 2 →
        readyQ s2 q = [] ∨ ∃ a, sC1w.active_task = some a ∧ readyQ s2 q = [a])) :=
  ⟨by decide, by decide, by decide, by decide,
   fun a ha => by
     injection ha with h
     subst h
     exact ⟨by decide, ⟨mkStatus TASK_READY 1 0, rfl, by decide⟩⟩,
   ⟨by decide, by decide,
    fun j h1 h2 => by
      have hj : j = 1 := by omega
      subst hj
      decide⟩,
   (select_active_task_dispatch_spec 2 sC1w (by decide) (by decide) (by decide)
      (by decide)
      (fun a ha => by
        injection ha with h
        subst h
        exact ⟨by decide, ⟨mkStatus TASK_READY 1 0, rfl, by decide⟩⟩)).2
     0 2 [] (by decide) (by decide)
     (fun j h1 h2 => by
       have hj : j = 1 := by omega
       subst hj
       decide)⟩

/-- Helper for the self-destroyed case: with no active task, a task that sits
only on the exited list is not appended to any ready queue or to the blocked
list by the dispatch. -/
theorem select_after_scan_no_reappend (P : Nat) (s1 : SchedState) (a : TaskId)
    (hlen : s1.ready_tasks.length = P)
    (hact : s1.active_task = none)
    (ha_ready : ∀ q, q < P → a ∉ readyQ s1 q)
    (hab : a ∉ s1.blocked_tasks) (hae : a ∈ s1.exited_tasks)
    (i0 : Nat) (hi0 : i0 < P) :
    ∀ s2, select_after_scan s1 i0 = some s2 →
      (∀ q, q < P → a ∉ readyQ s2 q) ∧ a ∉ s2.blocked_tasks ∧
      a ∈ s2.exited_tasks := by
  intro s2 hsel
  cases hqi : readyQ s1 i0 with
  | nil =>
    rw [select_after_scan_eq_nil s1 i0 hqi] at hsel
    injection hsel with h2
    subst h2
    exact ⟨ha_ready, hab, hae⟩
  | cons m mrest =>
    have hact1 : ({ s1 with ready_tasks := s1.ready_tasks.set i0 mrest } : SchedState).active_task = none := hact
    rw [select_after_scan_eq_cons s1 i0 m mrest hqi,
      select_reparent_eq_none _ hact1, Option.some_bind] at hsel
    cases htm : tcbOf { s1 with ready_tasks := s1.ready_tasks.set i0 mrest } m with
    | none =>
      rw [htm] at hsel
      simp at hsel
    | some tm =>
      rw [htm, Option.map_some'] at hsel
      injection hsel with h2
      subst h2
      refine ⟨?_, hab, hae⟩
      intro q hq hmem
      have hmem2 : a ∈ (s1.ready_tasks.set i0 mrest).getD q [] := hmem
      by_cases hqi0 : q = i0
      · rw [hqi0, getD_set_self s1.ready_tasks i0 mrest [] (by omega)] at hmem2
        exact ha_ready i0 hi0 (by rw [hqi]; exact List.mem_cons_of_mem m hmem2)
      · rw [getD_set_ne s1.ready_tasks i0 q mrest [] (fun e => hqi0 e.symm)] at hmem2
        exact ha_ready q hq hmem2

/-- Helper for the reparenting case: when a dispatch happens (some ready queue
is non-empty), the previous active task lands on exactly the list appropriate
to its state, and the new active task belongs to no list. -/
theorem select_dispatch_prev_memberships (P : Nat) (s : SchedState) (a : TaskId)
    (ta : task_status) (hP : 1 ≤ P) (hlen : s.ready_tasks.length = P)
    (hnodup : (allListed s).Nodup)
    (hactive : s.active_task = some a)
    (hta : tcbOf s a = some ta) (htap : ta.priority < P)
    (hnotin : a ∉ allListed s)
    (p : Nat) (n : TaskId) (rest : List TaskId)
    (hp : p < P) (hq : readyQ s p = n :: rest)
    (habove : ∀ q, p < q → q < P → readyQ s q = []) :
    ∀ s2, select_active_task P s = some s2 →
      ((ta.state = TASK_BLOCKED →
         a ∈ s2.blocked_tasks ∧ (∀ q, q < P → a ∉ readyQ s2 q) ∧
         a ∉ s2.exited_tasks) ∧
       (ta.state ≠ TASK_BLOCKED →
         a ∈ readyQ s2 ta.priority ∧
         (∀ q, q < P → q ≠ ta.priority → a ∉ readyQ s2 q) ∧
         a ∉ s2.blocked_tasks ∧ a ∉ s2.exited_tasks) ∧
       (∀ n2, s2.active_task = some n2 →
         (∀ q, q < P → n2 ∉ readyQ s2 q) ∧ n2 ∉ s2.blocked_tasks ∧
         n2 ∉ s2.exited_tasks)) := by
  have hplen : p < s.ready_tasks.length := by omega
  have hscan : scan_ready s (P - 1) = p := by
    apply scan_ready_eq s p (P - 1) (by omega)
    · exact Or.inr (by rw [hq]; exact List.cons_ne_nil n rest)
    · intro j h1 h2
      exact habove j h1 (by omega)
  have hnotf : a ∉ s.ready_tasks.flatten := fun h =>
    hnotin (List.mem_append.2 (Or.inl (List.mem_append.2 (Or.inl h))))
  have hnotb : a ∉ s.blocked_tasks := fun h =>
    hnotin (List.mem_append.2 (Or.inl (List.mem_append.2 (Or.inr h))))
  have hnote : a ∉ s.exited_tasks := fun h =>
    hnotin (List.mem_append.2 (Or.inr h))
  have hnotq : ∀ q, q < P → a ∉ readyQ s q := fun q hq2 hm =>
    hnotf (mem_flatten_of_mem_readyQ s q a (by omega) hm)
  have hparts := sched_nodup_parts s hnodup
  have hnm : n ∈ readyQ s p := by rw [hq]; exact List.mem_cons_self n rest
  have hnf : n ∈ s.ready_tasks.flatten := mem_flatten_of_mem_readyQ s p n hplen hnm
  have hnb : n ∉ s.blocked_tasks := (hparts.2.2.2.1 n hnf).1
  have hnexi : n ∉ s.exited_tasks := (hparts.2.2.2.1 n hnf).2
  have hnz : ∀ q, q < P → q ≠ p → n ∉ readyQ s q := fun q hq2 hne =>
    readyQ_disjoint s hnodup p q hplen (by omega) (fun e => hne e.symm) n hnm
  have hqnodup : (readyQ s p).Nodup := readyQ_nodup s hnodup p hplen
  have hnrest : n ∉ rest := by
    rw [hq] at hqnodup
    exact (List.nodup_cons.1 hqnodup).1
  have hnall : n ∈ allListed s :=
    List.mem_append.2 (Or.inl (List.mem_append.2 (Or.inl hnf)))
  have hne_na : n ≠ a := fun e => hnotin (e ▸ hnall)
  have hlen2 : (s.ready_tasks.set p rest).length = s.ready_tasks.length :=
    List.length_set s.ready_tasks p rest
  intro s2 hsel
  have hsel0 : select_active_task P s = select_after_scan s p := by
    unfold select_active_task
    rw [hscan]
  have hact1 : ({ s with ready_tasks := s.ready_tasks.set p rest } : SchedState).active_task = some a := hactive
  have hta1 : tcbOf { s with ready_tasks := s.ready_tasks.set p rest } a = some ta := hta
  rw [hsel0, select_after_scan_eq_cons s p n rest hq,
    select_reparent_eq_some _ a ta hact1 hta1] at hsel
  by_cases hb : ta.state = TASK_BLOCKED
  · rw [if_pos hb, Option.some_bind] at hsel
    obtain ⟨tn, htn, hginv⟩ := Option.map_eq_some'.1 hsel
    subst hginv
    refine ⟨?_, ?_, ?_⟩
    · intro _
      refine ⟨List.mem_append.2 (Or.inr (by simp)), ?_, hnote⟩
      intro q hq2 hmem
      have hmem2 : a ∈ (s.ready_tasks.set p rest).getD q [] := hmem
      by_cases hqp : q = p
      · rw [hqp, getD_set_self s.ready_tasks p rest [] hplen] at hmem2
        exact hnotq p hp (by rw [hq]; exact List.mem_cons_of_mem n hmem2)
      · rw [getD_set_ne s.ready_tasks p q rest [] (fun e => hqp e.symm)] at hmem2
        exact hnotq q hq2 hmem2
    · intro hcon
      exact absurd hb hcon
    · intro n2 hn2
      have hnn : some n = some n2 := hn2
      injection hnn with hnn
      subst hnn
      refine ⟨?_, ?_, hnexi⟩
      · intro q hq2 hmem
        have hmem2 : n ∈ (s.ready_tasks.set p rest).getD q [] := hmem
        by_cases hqp : q = p
        · rw [hqp, getD_set_self s.ready_tasks p rest [] hplen] at hmem2
          exact hnrest hmem2
        · rw [getD_set_ne s.ready_tasks p q rest [] (fun e => hqp e.symm)] at hmem2
          exact hnz q hq2 hqp hmem2
      · intro hmem
        rcases List.mem_append.1 hmem with hm | hm
        · exact hnb hm
        · exact hne_na (List.mem_singleton.1 hm)
  · rw [if_neg hb, Option.some_bind] at hsel
    obtain ⟨tn, htn, hginv⟩ := Option.map_eq_some'.1 hsel
    subst hginv
    refine ⟨?_, ?_, ?_⟩
    · intro hcon
      exact absurd hcon hb
    · intro _
      refine ⟨?_, ?_, hnotb, hnote⟩
      · show a ∈ ((s.ready_tasks.set p rest).set ta.priority ((s.ready_tasks.set p rest).getD ta.priority [] ++ [a])).getD ta.priority []
        rw [getD_set_self (s.ready_tasks.set p rest) ta.priority _ [] (by omega)]
        exact List.mem_append.2 (Or.inr (List.mem_singleton_self a))
      · intro q hq2 hqa hmem
        have hmem2 : a ∈ ((s.ready_tasks.set p rest).set ta.priority ((s.ready_tasks.set p rest).getD ta.priority [] ++ [a])).getD q [] := hmem
        rw [getD_set_ne (s.ready_tasks.set p rest) ta.priority q _ [] (fun e => hqa e.symm)] at hmem2
        by_cases hqp : q = p
        · rw [hqp, getD_set_self s.ready_tasks p rest [] hplen] at hmem2
          exact hnotq p hp (by rw [hq]; exact List.mem_cons_of_mem n hmem2)
        · rw [getD_set_ne s.ready_tasks p q rest [] (fun e => hqp e.symm)] at hmem2
          exact hnotq q hq2 hmem2
    · intro n2 hn2
      have hnn : some n = some n2 := hn2
      injection hnn with hnn
      subst hnn
      refine ⟨?_, hnb, hnexi⟩
      intro q hq2 hmem
      have hmem2 : n ∈ ((s.ready_tasks.set p rest).set ta.priority ((s.ready_tasks.set p rest).getD ta.priority [] ++ [a])).getD q [] := hmem
      by_cases hq0 : q = ta.priority
      · rw [hq0, getD_set_self (s.ready_tasks.set p rest) ta.priority _ [] (by omega)] at hmem2
        rcases List.mem_append.1 hmem2 with hm | hm
        · by_cases htp : ta.priority = p
          · rw [htp, getD_set_self s.ready_tasks p rest [] hplen] at hm
            exact hnrest hm
          · rw [getD_set_ne s.ready_tasks p ta.priority rest [] (fun e => htp e.symm)] at hm
            exact hnz ta.priority htap htp hm
        · exact hne_na (List.mem_singleton.1 hm)
      · rw [getD_set_ne (s.ready_tasks.set p rest) ta.priority q _ [] (fun e => hq0 e.symm)] at hmem2
        by_cases hqp : q = p
        · rw [hqp, getD_set_self s.ready_tasks p rest [] hplen] at hmem2
          exact hnrest hmem2
        · rw [getD_set_ne s.ready_tasks p q rest [] (fun e => hqp e.symm)] at hmem2
          exact hnz q hq2 hqp hmem2

/-- C2 (amended): if the active task has self-destroyed via task_destroy on
itself before a scheduler pass, the subsequent select_active_task call does
not append that task to any ready queue or to the blocked list: it belongs
only to the exited list and no re-append happens. In every other case with a
previous active task present, provided some ready queue is non-empty (the
source otherwise returns early and leaves the previous active task on no
list), select_active_task places the previous active task on exactly one list
appropriate to its state (the blocked list if BLOCKED, the tail of the ready
queue at its own priority otherwise), and the new active task belongs to no
list. -/
theorem select_reparent_membership_spec (P : Nat) (s0 : SchedState) (a : TaskId)
    (hP : 1 ≤ P) (hlen : s0.ready_tasks.length = P)
    (hnodup : (allListed s0).Nodup)
    (hactive : s0.active_task = some a)
    (hnotin : a ∉ allListed s0) :
    (∀ s1 eff, task_destroy s0 a = some (s1, eff) →
      ∀ s2, select_active_task P s1 = some s2 →
        (∀ q, q < P → a ∉ readyQ s2 q) ∧ a ∉ s2.blocked_tasks ∧
        a ∈ s2.exited_tasks) ∧
    (∀ ta, tcbOf s0 a = some ta → ta.priority < P →
      ∀ j, j < P → readyQ s0 j ≠ [] →
      ∀ s2, select_active_task P s0 = some s2 →
        ((ta.state = TASK_BLOCKED →
           a ∈ s2.blocked_tasks ∧ (∀ q, q < P → a ∉ readyQ s2 q) ∧
           a ∉ s2.exited_tasks) ∧
         (ta.state ≠ TASK_BLOCKED →
           a ∈ readyQ s2 ta.priority ∧
           (∀ q, q < P → q ≠ ta.priority → a ∉ readyQ s2 q) ∧
           a ∉ s2.blocked_tasks ∧ a ∉ s2.exited_tasks) ∧
         (∀ n2, s2.active_task = some n2 →
           (∀ q, q < P → n2 ∉ readyQ s2 q) ∧ n2 ∉ s2.blocked_tasks ∧
           n2 ∉ s2.exited_tasks))) := by
  have hnotf : a ∉ s0.ready_tasks.flatten := fun h =>
    hnotin (List.mem_append.2 (Or.inl (List.mem_append.2 (Or.inl h))))
  have hnotb : a ∉ s0.blocked_tasks := fun h =>
    hnotin (List.mem_append.2 (Or.inl (List.mem_append.2 (Or.inr h))))
  have hnotq : ∀ q, q < P → a ∉ readyQ s0 q := fun q hq2 hm =>
    hnotf (mem_flatten_of_mem_readyQ s0 q a (by omega) hm)
  constructor
  · intro s1 eff hdes s2 hsel
    have hdes2 := task_destroy_active_spec s0 a hactive
    rw [hdes2] at hdes
    injection hdes with h1
    injection h1 with hs1 heff
    subst hs1
    refine select_after_scan_no_reappend P
      { s0 with exited_tasks := s0.exited_tasks ++ [a], active_task := none } a
      hlen rfl (fun q hq2 hm => hnotq q hq2 hm) hnotb
      (List.mem_append.2 (Or.inr (List.mem_singleton_self a)))
      (scan_ready { s0 with exited_tasks := s0.exited_tasks ++ [a], active_task := none } (P - 1))
      ?_ s2 hsel
    have := scan_ready_le
      { s0 with exited_tasks := s0.exited_tasks ++ [a], active_task := none } (P - 1)
    omega
  · intro ta hta htap j hj hjne s2 hsel
    have hple := scan_ready_le s0 (P - 1)
    have hspec := scan_ready_spec s0 (P - 1)
    have hpne : readyQ s0 (scan_ready s0 (P - 1)) ≠ [] := by
      rcases hspec.1 with h0 | h0
      · by_cases hj0 : j = 0
        · rw [h0, ← hj0]
          exact hjne
        · exfalso
          have hlt : scan_ready s0 (P - 1) < j := by rw [h0]; omega
          exact hjne (hspec.2 j hlt (by omega))
      · exact h0
    obtain ⟨n, rest, hq⟩ : ∃ n rest, readyQ s0 (scan_ready s0 (P - 1)) = n :: rest := by
      cases hqe : readyQ s0 (scan_ready s0 (P - 1)) with
      | nil => exact absurd hqe hpne
      | cons x xs => exact ⟨x, xs, rfl⟩
    exact select_dispatch_prev_memberships P s0 a ta hP hlen hnodup hactive hta htap
      hnotin (scan_ready s0 (P - 1)) n rest (by omega) hq
      (fun q h1 h2 => hspec.2 q h1 (by omega)) s2 hsel

/-- C2 counterexample: a previous active task is present (it has yielded, so
its state is READY) but every ready queue is empty; select_active_task
returns the state unchanged, so the previous active task is placed on no list
at all, refuting the claim's unqualified "places the previous active task on
exactly one list". -/
theorem select_keeps_blocked_active_counterexample :
    select_active_task 2 ⟨[(1, mkStatus TASK_READY 0 0)], some 1, [[], []], [], []⟩ =
      some ⟨[(1, mkStatus TASK_READY 0 0)], some 1, [[], []], [], []⟩ ∧
    (⟨[(1, mkStatus TASK_READY 0 0)], some 1, [[], []], [], []⟩ :
      SchedState).active_task = some 1 ∧
    (1 : TaskId) ∉ allListed ⟨[(1, mkStatus TASK_READY 0 0)], some 1, [[], []], [], []⟩ := by
  decide

/-- Concrete state for the C2 witness: active task 1 has blocked itself with
cause 3, and task 2 at priority 0 is ready. -/
def sC2w : SchedState :=
  ⟨[(1, mkStatus TASK_BLOCKED 1 3), (2, mkStatus TASK_READY 0 0)], some 1,
   [[2], []], [], []⟩

/-- Scheduler state after one dispatch from sC2w: task 1 parked on the blocked
list, task 2 active. -/
def sC2w2 : SchedState :=
  ⟨[(1, mkStatus TASK_BLOCKED 1 3), (2, mkStatus TASK_ACTIVE 0 0)], some 2,
   [[], []], [1], []⟩

/-- Scheduler state after the active task 1 of sC2w self-destroys: task 1 only
on the exited list, no active task. -/
def sC2a1 : SchedState :=
  ⟨[(1, mkStatus TASK_BLOCKED 1 3), (2, mkStatus TASK_READY 0 0)], none,
   [[2], []], [], [1]⟩

/-- Scheduler state after one dispatch from sC2a1: task 2 active, task 1 still
only on the exited list. -/
def sC2a2 : SchedState :=
  ⟨[(1, mkStatus TASK_BLOCKED 1 3), (2, mkStatus TASK_ACTIVE 0 0)], some 2,
   [[], []], [], [1]⟩

/-- Concrete instantiation of the amended C2 theorem with every hypothesis
discharged, covering both the self-destroy pass and a blocked-reparent
dispatch. -/
theorem select_reparent_membership_spec_witness :
    (1 ≤ 2) ∧ (sC2w.ready_tasks.length = 2) ∧ (allListed sC2w).Nodup ∧
    (sC2w.active_task = some 1) ∧ ((1 : TaskId) ∉ allListed sC2w) ∧
    (task_destroy sC2w 1 = some (sC2a1, ⟨true, []⟩)) ∧
    (select_active_task 2 sC2a1 = some sC2a2) ∧
    ((∀ q, q < 2 → (1 : TaskId) ∉ readyQ sC2a2 q) ∧
      (1 : TaskId) ∉ sC2a2.blocked_tasks ∧ (1 : TaskId) ∈ sC2a2.exited_tasks) ∧
    (tcbOf sC2w 1 = some (mkStatus TASK_BLOCKED 1 3)) ∧
    ((mkStatus TASK_BLOCKED 1 3).priority < 2) ∧
    ((0 : Nat) < 2) ∧ (readyQ sC2w 0 ≠ []) ∧
    (select_active_task 2 sC2w = some sC2w2) ∧
    (((mkStatus TASK_BLOCKED 1 3).state = TASK_BLOCKED →
       (1 : TaskId) ∈ sC2w2.blocked_tasks ∧
       (∀ q, q < 2 → (1 : TaskId) ∉ readyQ sC2w2 q) ∧
       (1 : TaskId) ∉ sC2w2.exited_tasks) ∧
     ((mkStatus TASK_BLOCKED 1 3).state ≠ TASK_BLOCKED →
       (1 : TaskId) ∈ readyQ sC2w2 (mkStatus TASK_BLOCKED 1 3).priority ∧
       (∀ q, q < 2 → q ≠ (mkStatus TASK_BLOCKED 1 3).priority →
         (1 : TaskId) ∉ readyQ sC2w2 q) ∧
       (1 : TaskId) ∉ sC2w2.blocked_tasks ∧ (1 : TaskId) ∉ sC2w2.exited_tasks) ∧
     (∀ n2, sC2w2.active_task = some n2 →
       (∀ q, q < 2 → n2 ∉ readyQ sC2w2 q) ∧ n2 ∉ sC2w2.blocked_tasks ∧
       n2 ∉ sC2w2.exited_tasks)) :=
  ⟨by decide, by decide, by decide, rfl, by decide,
   by decide, by decide,
   (select_reparent_membership_spec 2 sC2w 1 (by decide) (by decide) (by decide)
      rfl (by decide)).1 sC2a1 ⟨true, []⟩ (by decide) sC2a2 (by decide),
   rfl, by decide, by decide, by decide, by decide,
   (select_reparent_membership_spec 2 sC2w 1 (by decide) (by decide) (by decide)
      rfl (by decide)).2 (mkStatus TASK_BLOCKED 1 3) rfl (by decide) 0 (by decide)
     (by decide) sC2w2 (by decide)⟩
